import Mathlib

/-!
Verification development for the cache/query layer of the quotefast dashboard
(`DatabaseService` in the source: an in-process read-through query cache with
tag-based invalidation in front of a relational data gateway).

The embedding below translates the TypeScript source faithfully:
* JavaScript objects used as parameter bags become `Json` values whose object
  fields are an ordered list, mirroring JS property insertion order;
  `JSON.stringify` is modelled including its field-order sensitivity.
* `Buffer.from(key).toString('base64')` is modelled by UTF-8 encoding the key
  string and applying standard padded base64.
* The mutable singleton state of `DatabaseService` becomes an explicit
  `DBState` record that every operation threads; `Date.now()` becomes explicit
  integer millisecond timestamps passed to each operation (one for the cache
  lookup and one for the cache store, since an `await` separates them).
* The Supabase client is the external `Gateway` collaborator, modelled as a
  response oracle; each operation also returns the list of gateway calls it
  performed, so "zero remote calls" is directly observable.
* Thrown exceptions from the gateway are modelled as an explicit `GwResult`
  constructor; the `catch` blocks of the source map them to error results, so
  every embedded operation is a total function.
-/

namespace DatabaseService

/-- JavaScript values that can appear in a parameter bag.  Object fields are
kept in insertion order, exactly as a JS engine enumerates them for
`JSON.stringify` / `Object.entries`.  Numbers are modelled as integers (no
claim involves fractional parameters). -/
inductive Json where
  | null : Json
  | bool : Bool → Json
  | num : Int → Json
  | str : String → Json
  | arr : List Json → Json
  | obj : List (String × Json) → Json

/-- Lower-case hex digit, as produced by `JSON.stringify` unicode escapes. -/
def hexDigit (n : Nat) : Char :=
  if n < 10 then Char.ofNat (48 + n) else Char.ofNat (87 + n)

/-- Escaping of a single character inside a JSON string literal, following
`JSON.stringify`: quote, backslash and the control shorthands, with `\u00xx`
for the remaining control characters. -/
def escapeChar (c : Char) : String :=
  if c = '"' then "\\\""
  else if c = '\\' then "\\\\"
  else if c = Char.ofNat 8 then "\\b"
  else if c = Char.ofNat 9 then "\\t"
  else if c = Char.ofNat 10 then "\\n"
  else if c = Char.ofNat 12 then "\\f"
  else if c = Char.ofNat 13 then "\\r"
  else if c.toNat < 32 then
    "\\u00" ++ String.mk [hexDigit (c.toNat / 16), hexDigit (c.toNat % 16)]
  else String.singleton c

/-- A JSON string literal with surrounding quotes. -/
def jsonQuote (s : String) : String :=
  "\"" ++ String.join (s.toList.map escapeChar) ++ "\""

mutual
/-- `JSON.stringify`, including its sensitivity to object-field order: fields
are emitted in insertion order, which is how the source derives cache keys. -/
def jsonStringify : Json → String
  | Json.null => "null"
  | Json.bool b => if b then "true" else "false"
  | Json.num n => toString n
  | Json.str s => jsonQuote s
  | Json.arr xs => "[" ++ stringifyElems xs ++ "]"
  | Json.obj fs => "\x7b" ++ stringifyFields fs ++ "\x7d"

/-- Comma-separated serialization of array elements. -/
def stringifyElems : List Json → String
  | [] => ""
  | [x] => jsonStringify x
  | x :: y :: xs => jsonStringify x ++ "," ++ stringifyElems (y :: xs)

/-- Comma-separated serialization of object fields, in list (insertion) order. -/
def stringifyFields : List (String × Json) → String
  | [] => ""
  | [(k, v)] => jsonQuote k ++ ":" ++ jsonStringify v
  | (k, v) :: f :: fs =>
      jsonQuote k ++ ":" ++ jsonStringify v ++ "," ++ stringifyFields (f :: fs)
end

/-- UTF-8 encoding of one character (`Buffer.from` uses UTF-8 by default). -/
def utf8Bytes (c : Char) : List Nat :=
  let n := c.toNat
  if n < 128 then [n]
  else if n < 2048 then [192 + n / 64, 128 + n % 64]
  else if n < 65536 then [224 + n / 4096, 128 + n / 64 % 64, 128 + n % 64]
  else [240 + n / 262144, 128 + n / 4096 % 64, 128 + n / 64 % 64, 128 + n % 64]

/-- The UTF-8 byte sequence of a string. -/
def strBytes (s : String) : List Nat :=
  (s.toList.map utf8Bytes).flatten

/-- The standard base64 alphabet. -/
def b64Char (n : Nat) : Char :=
  "ABCDEFGHIJKLMNOPQRSTUVWXYZabcdefghijklmnopqrstuvwxyz0123456789+/".toList.getD n 'A'

/-- Padded base64 of a byte sequence, as `Buffer.toString('base64')` yields. -/
def base64Encode : List Nat → String
  | [] => ""
  | [a] =>
      String.mk [b64Char (a / 4), b64Char (a % 4 * 16), '=', '=']
  | [a, b] =>
      String.mk [b64Char (a / 4), b64Char (a % 4 * 16 + b / 16), b64Char (b % 16 * 4), '=']
  | a :: b :: c :: rest =>
      String.mk [b64Char (a / 4), b64Char (a % 4 * 16 + b / 16),
                 b64Char (b % 16 * 4 + c / 64), b64Char (c % 64)] ++ base64Encode rest

/-- The `DatabaseOperation` union type of the source. -/
inductive DatabaseOperation where
  | select | insert | update | delete | upsert
deriving DecidableEq, Repr

/-- The string each `DatabaseOperation` literal interpolates to. -/
def DatabaseOperation.name : DatabaseOperation → String
  | .select => "select"
  | .insert => "insert"
  | .update => "update"
  | .delete => "delete"
  | .upsert => "upsert"

/-- `generateCacheKey` of the source:
`Buffer.from(table + ":" + operation + ":" + JSON.stringify(params)).toString('base64')`. -/
def generateCacheKey (table : String) (operation : DatabaseOperation) (params : Json) : String :=
  base64Encode (strBytes (table ++ ":" ++ operation.name ++ ":" ++ jsonStringify params))

/-- One cache entry: `{ data: any; expiresAt: number; tags: string[] }`.
`expiresAt` is an absolute millisecond timestamp. -/
structure CacheEntry where
  data : Json
  expiresAt : Int
  tags : List String

/-- The `QueryResult<T>` interface.  `data`/`error` are `T | null` and
`string | null` in the source; `none` models JS `null`/absent.  The optional
`cachedAt`/`expiresAt` ISO strings are modelled by the millisecond timestamps
they render (the rendering is injective, so nothing is lost). -/
structure QueryResult where
  data : Option Json
  error : Option String
  fromCache : Bool
  cachedAt : Option Int := none
  expiresAt : Option Int := none

/-- The mutable singleton state of `DatabaseService`.  The JS `Map` becomes an
ordered association list (a JS `Map` iterates in insertion order and holds at
most one entry per key).  `queryCache` is declared by the source but only ever
cleared. -/
structure DBState where
  cache : List (String × CacheEntry)
  queryCache : List (String × QueryResult)
  isCacheEnabled : Bool
  defaultTTL : Int

/-- `Map.get`: the value at the first (only) occurrence of the key. -/
def mapGet (m : List (String × CacheEntry)) (k : String) : Option CacheEntry :=
  (m.find? (fun p => p.1 == k)).map (fun p => p.2)

/-- `Map.set`: overwrite in place when the key is present, append otherwise
(JS `Map.set` keeps the original insertion position on overwrite). -/
def mapSet (m : List (String × CacheEntry)) (k : String) (v : CacheEntry) :
    List (String × CacheEntry) :=
  if m.any (fun p => p.1 == k) then
    m.map (fun p => if p.1 == k then (k, v) else p)
  else m ++ [(k, v)]

/-- `Map.delete`: remove the entry with the given key. -/
def mapDelete (m : List (String × CacheEntry)) (k : String) : List (String × CacheEntry) :=
  m.filter (fun p => p.1 != k)

/-- `setCacheEnabled`. -/
def setCacheEnabled (st : DBState) (enabled : Bool) : DBState :=
  { st with isCacheEnabled := enabled }

/-- `setDefaultTTL`. -/
def setDefaultTTL (st : DBState) (ttl : Int) : DBState :=
  { st with defaultTTL := ttl }

/-- `isCacheValid`: the entry exists and `Date.now() < entry.expiresAt`. -/
def isCacheValid (st : DBState) (now : Int) (key : String) : Bool :=
  match mapGet st.cache key with
  | none => false
  | some entry => decide (now < entry.expiresAt)

/-- `getFromCache`: `null` when caching is disabled; otherwise a miss (with
eager deletion of the stale entry) unless the entry exists and is valid, in
which case the cached data is returned with `fromCache: true` and a `cachedAt`
reconstructed as `expiresAt - defaultTTL * 1000`. -/
def getFromCache (st : DBState) (now : Int) (key : String) : Option QueryResult × DBState :=
  if !st.isCacheEnabled then (none, st)
  else
    match mapGet st.cache key with
    | none => (none, { st with cache := mapDelete st.cache key })
    | some entry =>
      if isCacheValid st now key then
        (some { data := some entry.data
                error := none
                fromCache := true
                cachedAt := some (entry.expiresAt - st.defaultTTL * 1000)
                expiresAt := some entry.expiresAt }, st)
      else (none, { st with cache := mapDelete st.cache key })

/-- `setCache`: a no-op when caching is disabled, otherwise stores
`{data, expiresAt := now + ttl * 1000, tags}` under the key.  The source
defaults `ttl` to `defaultTTL` and `tags` to `[]`; the call sites embedded
below always pass them explicitly or with those defaults. -/
def setCache (st : DBState) (now : Int) (key : String) (data : Json)
    (ttl : Int) (tags : List String) : DBState :=
  if !st.isCacheEnabled then st
  else { st with cache := mapSet st.cache key
                  { data := data, expiresAt := now + ttl * 1000, tags := tags } }

/-- Does the entry's tag set intersect the given tags?
(`entry.tags.some(tag => tags.includes(tag))`). -/
def entryMatchesTags (e : CacheEntry) (tags : List String) : Bool :=
  e.tags.any (fun t => tags.contains t)

/-- `invalidateCacheByTags`: a no-op when caching is disabled; otherwise
deletes every entry whose tag set intersects `tags`.  The removal count is
computed only for logging; the method's return type is `void`, modelled by the
`Unit` component of the result. -/
def invalidateCacheByTags (st : DBState) (tags : List String) : Unit × DBState :=
  if !st.isCacheEnabled then ((), st)
  else ((), { st with cache := st.cache.filter (fun p => !entryMatchesTags p.2 tags) })

/-- `clearCache`: removes all entries from both maps. -/
def clearCache (st : DBState) : DBState :=
  { st with cache := [], queryCache := [] }

/-- The `CacheConfig` interface: `{ ttl: number; key: string; tags?: string[] }`.
`key` is declared (and serialized into cache keys) but never read by the
operations. -/
structure CacheConfig where
  ttl : Int
  key : String
  tags : Option (List String) := none

/-- `orderBy: { column: string; ascending?: boolean }`. -/
structure OrderBy where
  column : String
  ascending : Option Bool := none

/-- The options bag of `select`. -/
structure SelectOptions where
  columns : Option String := none
  filters : Option (List (String × Json)) := none
  orderBy : Option OrderBy := none
  limit : Option Int := none
  offset : Option Int := none
  cache : Option CacheConfig := none

/-- Options of `insert` and `update`: `{ cache?; invalidateTags? }`
(`cache` is accepted but never read by either). -/
structure WriteOptions where
  cache : Option CacheConfig := none
  invalidateTags : Option (List String) := none

/-- Options of `delete`: `{ invalidateTags? }`. -/
structure DeleteOptions where
  invalidateTags : Option (List String) := none

/-- Options of `upsert`: `{ onConflict?; cache?; invalidateTags? }`
(`cache` is accepted but never read). -/
structure UpsertOptions where
  onConflict : Option String := none
  cache : Option CacheConfig := none
  invalidateTags : Option (List String) := none

/-- Options of `rawQuery`: `{ cache? }`. -/
structure RawQueryOptions where
  cache : Option CacheConfig := none

/-- One condition applied to the Supabase query builder while forwarding a
filter entry: `.in`, the range/pattern refinements, or `.eq`. -/
inductive FilterCond where
  | inList : String → List Json → FilterCond
  | gte : String → Json → FilterCond
  | lte : String → Json → FilterCond
  | gt : String → Json → FilterCond
  | lt : String → Json → FilterCond
  | like : String → Json → FilterCond
  | ilike : String → Json → FilterCond
  | eq : String → Json → FilterCond

/-- Property lookup on a JS object literal (`value.gte` etc.): the value of
the first field with that name. -/
def lookupField (fields : List (String × Json)) (name : String) : Option Json :=
  (fields.find? (fun p => p.1 == name)).map (fun p => p.2)

/-- The range/pattern refinements applied for an object-valued filter, in the
source's fixed order (`gte`, `lte`, `gt`, `lt`, `like`, `ilike`); each is
applied only when the property is present. -/
def rangeConds (col : String) (fields : List (String × Json)) : List FilterCond :=
  (match lookupField fields "gte" with | some v => [FilterCond.gte col v] | none => []) ++
  (match lookupField fields "lte" with | some v => [FilterCond.lte col v] | none => []) ++
  (match lookupField fields "gt" with | some v => [FilterCond.gt col v] | none => []) ++
  (match lookupField fields "lt" with | some v => [FilterCond.lt col v] | none => []) ++
  (match lookupField fields "like" with | some v => [FilterCond.like col v] | none => []) ++
  (match lookupField fields "ilike" with | some v => [FilterCond.ilike col v] | none => [])

/-- Dispatch on the shape of one filter value: arrays become `.in`, non-null
objects become range/pattern refinements, everything else becomes `.eq`
(JS `null` has `typeof 'object'` but is excluded by `value !== null`, so it
falls through to `.eq`, as here). -/
def filterConds (col : String) : Json → List FilterCond
  | Json.arr vs => [FilterCond.inList col vs]
  | Json.obj fields => rangeConds col fields
  | v => [FilterCond.eq col v]

/-- All conditions built from a filters record, in `Object.entries` order. -/
def buildConds (fs : List (String × Json)) : List FilterCond :=
  (fs.map (fun p => filterConds p.1 p.2)).flatten

/-- The fully built Supabase query a `select` hands to the gateway. -/
structure SelectQuery where
  table : String
  columns : String
  conds : List FilterCond
  order : Option (String × Bool)
  limit : Option Int
  range : Option (Int × Int)

/-- The query-building section of `select`: columns default to `*`; filters
are dispatched by shape; `ascending` defaults to `true` (`!== false`);
`.limit` is applied only when `options.limit` is truthy (dropped for `0`);
`.range` is applied only when `options.offset` is truthy, with end bound
`offset + (options.limit || 10) - 1`. -/
def buildSelectQuery (table : String) (o : SelectOptions) : SelectQuery :=
  { table := table
    columns := match o.columns with
      | some c => if c = "" then "*" else c
      | none => "*"
    conds := match o.filters with
      | some fs => buildConds fs
      | none => []
    order := o.orderBy.map (fun ob =>
      (ob.column, match ob.ascending with | some false => false | _ => true))
    limit := match o.limit with
      | some l => if l = 0 then none else some l
      | none => none
    range := match o.offset with
      | some off =>
          if off = 0 then none
          else some (off, off + (match o.limit with
            | some l => if l = 0 then 10 else l
            | none => 10) - 1)
      | none => none }

/-- Serialization of a `CacheConfig` literal for key derivation, fields in
declaration order, absent optionals omitted (as `JSON.stringify` omits
`undefined` properties). -/
def cacheConfigToJson (c : CacheConfig) : Json :=
  Json.obj ([("ttl", Json.num c.ttl), ("key", Json.str c.key)] ++
    (match c.tags with
     | some ts => [("tags", Json.arr (ts.map Json.str))]
     | none => []))

/-- Serialization of an `orderBy` literal for key derivation. -/
def orderByToJson (ob : OrderBy) : Json :=
  Json.obj ([("column", Json.str ob.column)] ++
    (match ob.ascending with
     | some b => [("ascending", Json.bool b)]
     | none => []))

/-- The `options` object of a `select` as the JS value handed to
`generateCacheKey` (the source stringifies the whole options bag).  Fields
appear in the interface's declaration order; absent optionals are omitted. -/
def selectOptionsToJson (o : SelectOptions) : Json :=
  Json.obj (
    (match o.columns with | some c => [("columns", Json.str c)] | none => []) ++
    (match o.filters with | some fs => [("filters", Json.obj fs)] | none => []) ++
    (match o.orderBy with | some ob => [("orderBy", orderByToJson ob)] | none => []) ++
    (match o.limit with | some l => [("limit", Json.num l)] | none => []) ++
    (match o.offset with | some off => [("offset", Json.num off)] | none => []) ++
    (match o.cache with | some c => [("cache", cacheConfigToJson c)] | none => []))

/-- The cache key a `select` computes: `generateCacheKey(table, 'select', options)`. -/
def selectCacheKey (table : String) (o : SelectOptions) : String :=
  generateCacheKey table DatabaseOperation.select (selectOptionsToJson o)

/-- The cache key a `rawQuery` computes:
`generateCacheKey('raw', 'select', { query, params })`. -/
def rawCacheKey (query : String) (params : List Json) : String :=
  generateCacheKey "raw" DatabaseOperation.select
    (Json.obj [("query", Json.str query), ("params", Json.arr params)])

/-- Outcome of one gateway (Supabase) call: a resolved `{data, error}` with
`error` null (`ok`), a resolved error (`err`), or a thrown exception
(`threw`, carrying `some message` for an `Error` and `none` otherwise). -/
inductive GwResult (α : Type) where
  | ok : α → GwResult α
  | err : String → GwResult α
  | threw : Option String → GwResult α

/-- The error string an operation surfaces for a failed gateway call:
`error.message` for a resolved error, and
`error instanceof Error ? error.message : 'Unknown error'` for a throw;
`none` when the call succeeded. -/
def failureMessage {α : Type} : GwResult α → Option String
  | GwResult.ok _ => none
  | GwResult.err m => some m
  | GwResult.threw exn => some (exn.getD "Unknown error")

/-- The external data gateway (remote relational store), modelled as a
response oracle per request shape. -/
structure Gateway where
  select : SelectQuery → GwResult (List Json)
  insert : String → Json → GwResult (List Json)
  update : String → Json → List (String × Json) → GwResult (List Json)
  delete : String → List (String × Json) → GwResult Unit
  upsert : String → Json → Option String → GwResult (List Json)
  rpc : String → List Json → GwResult (List Json)

/-- A record of one performed gateway call, for observing call counts. -/
inductive GwCall where
  | select : SelectQuery → GwCall
  | insert : String → Json → GwCall
  | update : String → Json → List (String × Json) → GwCall
  | delete : String → List (String × Json) → GwCall
  | upsert : String → Json → Option String → GwCall
  | rpc : String → List Json → GwCall

/-- `select`: compute the key, consult the cache (returning immediately on a
hit), otherwise build and run the gateway query; on success cache the rows
when a cache directive was supplied; on a resolved error or a throw return an
error result.  `tRead`/`tStore` are the `Date.now()` instants of the cache
lookup and of the post-await cache store. -/
def select (gw : Gateway) (st : DBState) (tRead tStore : Int)
    (table : String) (options : SelectOptions) :
    QueryResult × DBState × List GwCall :=
  let cacheKey := selectCacheKey table options
  match getFromCache st tRead cacheKey with
  | (some cached, st1) => (cached, st1, [])
  | (none, st1) =>
    let q := buildSelectQuery table options
    match gw.select q with
    | GwResult.ok rows =>
        let st2 := match options.cache with
          | some c => setCache st1 tStore cacheKey (Json.arr rows) c.ttl (c.tags.getD [])
          | none => st1
        ({ data := some (Json.arr rows), error := none, fromCache := false }, st2,
          [GwCall.select q])
    | GwResult.err msg =>
        ({ data := none, error := some msg, fromCache := false }, st1, [GwCall.select q])
    | GwResult.threw exn =>
        ({ data := none, error := some (exn.getD "Unknown error"), fromCache := false },
          st1, [GwCall.select q])

/-- `insert`: delegate unconditionally; on success invalidate the supplied
tags; on failure surface the error (the `cache` option is never read). -/
def insert (gw : Gateway) (st : DBState) (table : String) (data : Json)
    (options : WriteOptions) : QueryResult × DBState × List GwCall :=
  match gw.insert table data with
  | GwResult.ok rows =>
      let st1 := match options.invalidateTags with
        | some tags => (invalidateCacheByTags st tags).2
        | none => st
      ({ data := some (Json.arr rows), error := none, fromCache := false }, st1,
        [GwCall.insert table data])
  | GwResult.err msg =>
      ({ data := none, error := some msg, fromCache := false }, st, [GwCall.insert table data])
  | GwResult.threw exn =>
      ({ data := none, error := some (exn.getD "Unknown error"), fromCache := false },
        st, [GwCall.insert table data])

/-- `update`: delegate (filters applied as `.eq` pairs), then invalidate on
success. -/
def update (gw : Gateway) (st : DBState) (table : String) (data : Json)
    (filters : List (String × Json)) (options : WriteOptions) :
    QueryResult × DBState × List GwCall :=
  match gw.update table data filters with
  | GwResult.ok rows =>
      let st1 := match options.invalidateTags with
        | some tags => (invalidateCacheByTags st tags).2
        | none => st
      ({ data := some (Json.arr rows), error := none, fromCache := false }, st1,
        [GwCall.update table data filters])
  | GwResult.err msg =>
      ({ data := none, error := some msg, fromCache := false }, st,
        [GwCall.update table data filters])
  | GwResult.threw exn =>
      ({ data := none, error := some (exn.getD "Unknown error"), fromCache := false }, st,
        [GwCall.update table data filters])

/-- `delete`: delegate, invalidate on success; its success result is
`{ data: null, error: null, fromCache: false }`. -/
def delete (gw : Gateway) (st : DBState) (table : String)
    (filters : List (String × Json)) (options : DeleteOptions) :
    QueryResult × DBState × List GwCall :=
  match gw.delete table filters with
  | GwResult.ok _ =>
      let st1 := match options.invalidateTags with
        | some tags => (invalidateCacheByTags st tags).2
        | none => st
      ({ data := none, error := none, fromCache := false }, st1, [GwCall.delete table filters])
  | GwResult.err msg =>
      ({ data := none, error := some msg, fromCache := false }, st, [GwCall.delete table filters])
  | GwResult.threw exn =>
      ({ data := none, error := some (exn.getD "Unknown error"), fromCache := false }, st,
        [GwCall.delete table filters])

/-- The conflict key actually forwarded by `upsert`: `query.onConflict` is
applied only under `if (options.onConflict)`, a truthiness check, so an
empty-string key (falsy) is dropped exactly like an absent one. -/
def onConflictArg (o : Option String) : Option String :=
  match o with
  | some s => if s = "" then none else some s
  | none => none

/-- `upsert`: delegate (with the optional conflict key, applied only when
truthy), invalidate on success. -/
def upsert (gw : Gateway) (st : DBState) (table : String) (data : Json)
    (options : UpsertOptions) : QueryResult × DBState × List GwCall :=
  match gw.upsert table data (onConflictArg options.onConflict) with
  | GwResult.ok rows =>
      let st1 := match options.invalidateTags with
        | some tags => (invalidateCacheByTags st tags).2
        | none => st
      ({ data := some (Json.arr rows), error := none, fromCache := false }, st1,
        [GwCall.upsert table data (onConflictArg options.onConflict)])
  | GwResult.err msg =>
      ({ data := none, error := some msg, fromCache := false }, st,
        [GwCall.upsert table data (onConflictArg options.onConflict)])
  | GwResult.threw exn =>
      ({ data := none, error := some (exn.getD "Unknown error"), fromCache := false }, st,
        [GwCall.upsert table data (onConflictArg options.onConflict)])

/-- `rawQuery`: like `select` but keyed by `('raw', 'select', {query, params})`
and delegated to the `execute_sql` RPC. -/
def rawQuery (gw : Gateway) (st : DBState) (tRead tStore : Int)
    (query : String) (params : List Json) (options : RawQueryOptions) :
    QueryResult × DBState × List GwCall :=
  let cacheKey := rawCacheKey query params
  match getFromCache st tRead cacheKey with
  | (some cached, st1) => (cached, st1, [])
  | (none, st1) =>
    match gw.rpc query params with
    | GwResult.ok rows =>
        let st2 := match options.cache with
          | some c => setCache st1 tStore cacheKey (Json.arr rows) c.ttl (c.tags.getD [])
          | none => st1
        ({ data := some (Json.arr rows), error := none, fromCache := false }, st2,
          [GwCall.rpc query params])
    | GwResult.err msg =>
        ({ data := none, error := some msg, fromCache := false }, st1, [GwCall.rpc query params])
    | GwResult.threw exn =>
        ({ data := none, error := some (exn.getD "Unknown error"), fromCache := false }, st1,
          [GwCall.rpc query params])

/-- One element of a `batch` call's operation list. -/
inductive BatchOp where
  | select : String → SelectOptions → BatchOp
  | insert : String → Json → WriteOptions → BatchOp
  | update : String → Json → List (String × Json) → WriteOptions → BatchOp
  | delete : String → List (String × Json) → DeleteOptions → BatchOp
  | upsert : String → Json → UpsertOptions → BatchOp

/-- The `switch` dispatch inside `batch`'s loop body. -/
def execOp (gw : Gateway) (st : DBState) (now : Int) :
    BatchOp → QueryResult × DBState × List GwCall
  | BatchOp.select table o => select gw st now now table o
  | BatchOp.insert table d o => insert gw st table d o
  | BatchOp.update table d fs o => update gw st table d fs o
  | BatchOp.delete table fs o => delete gw st table fs o
  | BatchOp.upsert table d o => upsert gw st table d o

/-- JS truthiness of `result.error` (a `string | null`): `null` and the empty
string are falsy; any other string is truthy.  This is the condition the
source's `if (result.error)` actually tests. -/
def errorTruthy (e : Option String) : Bool :=
  match e with
  | none => false
  | some s => s != ""

/-- The loop of `batch`, with the `results` accumulator: execute operations in
order, stop at the first result whose `error` is truthy (returning that error
with `data: null`) — following the source's `if (result.error)`, an
empty-string error is falsy and does NOT stop the loop — otherwise push
`result.data` (JS `null` when absent) and continue; when the list is
exhausted return all accumulated results. -/
def batchGo (gw : Gateway) (now : Int) :
    DBState → List BatchOp → List Json → QueryResult × DBState × List GwCall
  | st, [], acc => ({ data := some (Json.arr acc), error := none, fromCache := false }, st, [])
  | st, op :: ops, acc =>
    match execOp gw st now op with
    | (r, st1, calls) =>
      match errorTruthy r.error with
      | true => ({ data := none, error := r.error, fromCache := false }, st1, calls)
      | false =>
        match batchGo gw now st1 ops (acc ++ [r.data.getD Json.null]) with
        | (r2, st2, calls2) => (r2, st2, calls ++ calls2)

/-- `batch`: run the loop with an empty accumulator. -/
def batch (gw : Gateway) (st : DBState) (now : Int) (ops : List BatchOp) :
    QueryResult × DBState × List GwCall :=
  batchGo gw now st ops []

/-- Specification harness for `batch` theorems: the execution of an operation
list in which no operation yields a truthy error, returning the final state,
the collected `data` values and the gateway calls, or `none` as soon as any
operation yields a truthy error. -/
def allOkRun (gw : Gateway) (now : Int) :
    DBState → List BatchOp → Option (DBState × List Json × List GwCall)
  | st, [] => some (st, [], [])
  | st, op :: ops =>
    match execOp gw st now op with
    | (r, st1, calls) =>
      match errorTruthy r.error with
      | true => none
      | false =>
        match allOkRun gw now st1 ops with
        | some (st2, rs, cs) => some (st2, r.data.getD Json.null :: rs, calls ++ cs)
        | none => none

/-- The keys of a represented JS `Map` are pairwise distinct; every state
produced by `Map.set`/`Map.delete` satisfies this. -/
def keysNodup (m : List (String × CacheEntry)) : Prop :=
  (m.map Prod.fst).Nodup

theorem mapGet_eq_none_of_not_mem {m : List (String × CacheEntry)} {k : String}
    (h : k ∉ m.map Prod.fst) : mapGet m k = none := by
  have h2 : m.find? (fun p => p.1 == k) = none :=
    List.find?_eq_none.mpr (fun p hp hbeq =>
      h (List.mem_map.mpr ⟨p, hp, by simpa using hbeq⟩))
  unfold mapGet
  rw [h2]
  rfl

theorem mapGet_cons_eq {p : String × CacheEntry} {rest : List (String × CacheEntry)}
    {k : String} (hk : p.1 = k) : mapGet (p :: rest) k = some p.2 := by
  unfold mapGet
  rw [List.find?_cons_of_pos]
  · rfl
  · simpa using hk

theorem mapGet_cons_ne {p : String × CacheEntry} {rest : List (String × CacheEntry)}
    {k : String} (hk : ¬ p.1 = k) : mapGet (p :: rest) k = mapGet rest k := by
  unfold mapGet
  rw [List.find?_cons_of_neg]
  simpa using hk

theorem mapGet_eq_none_of_not_any (m : List (String × CacheEntry)) (k : String)
    (h : ¬ m.any (fun p => p.1 == k) = true) : mapGet m k = none :=
  mapGet_eq_none_of_not_mem (fun hmem => by
    rcases List.mem_map.mp hmem with ⟨p, hp, hfst⟩
    exact h (List.any_eq_true.mpr ⟨p, hp, by simp [hfst]⟩))

theorem mapGet_replace (m : List (String × CacheEntry)) (k : String) (v : CacheEntry)
    (h : m.any (fun p => p.1 == k) = true) :
    mapGet (m.map (fun p => if p.1 == k then (k, v) else p)) k = some v := by
  induction m with
  | nil => simp at h
  | cons p rest ih =>
    by_cases hk : p.1 = k
    · simp only [List.map_cons]
      rw [show (if (p.1 == k) = true then (k, v) else p) = (k, v) from by simp [hk]]
      exact mapGet_cons_eq rfl
    · have h' : rest.any (fun q => q.1 == k) = true := by
        simpa [List.any_cons, hk] using h
      simp only [List.map_cons]
      rw [show (if (p.1 == k) = true then (k, v) else p) = p from by simp [hk]]
      rw [mapGet_cons_ne hk]
      exact ih h'

theorem mapGet_append_single (m : List (String × CacheEntry)) (k : String) (v : CacheEntry)
    (h : mapGet m k = none) : mapGet (m ++ [(k, v)]) k = some v := by
  induction m with
  | nil => exact mapGet_cons_eq rfl
  | cons p rest ih =>
    by_cases hk : p.1 = k
    · rw [mapGet_cons_eq hk] at h
      exact absurd h (by simp)
    · rw [List.cons_append, mapGet_cons_ne hk]
      exact ih (by rwa [mapGet_cons_ne hk] at h)

theorem mapGet_mapSet_self (m : List (String × CacheEntry)) (k : String) (v : CacheEntry) :
    mapGet (mapSet m k v) k = some v := by
  unfold mapSet
  by_cases h : m.any (fun p => p.1 == k) = true
  · rw [if_pos h]
    exact mapGet_replace m k v h
  · rw [if_neg h]
    exact mapGet_append_single m k v (mapGet_eq_none_of_not_any m k h)

theorem mapGet_mapDelete_self (m : List (String × CacheEntry)) (k : String) :
    mapGet (mapDelete m k) k = none := by
  unfold mapGet mapDelete
  have h2 : (m.filter (fun p => p.1 != k)).find? (fun p => p.1 == k) = none :=
    List.find?_eq_none.mpr (fun p hp hbeq => by
      have hkeep := List.of_mem_filter hp
      simp only [bne_iff_ne, ne_eq] at hkeep
      exact hkeep (by simpa using hbeq))
  rw [h2]
  rfl

theorem mapGet_find?_eq_none {m : List (String × CacheEntry)} {k : String}
    (h : mapGet m k = none) : m.find? (fun p => p.1 == k) = none := by
  unfold mapGet at h
  rcases hfind : m.find? (fun p => p.1 == k) with _ | q
  · exact hfind
  · rw [hfind] at h
    simp at h

theorem mapGet_filter_of_none {m : List (String × CacheEntry)} {k : String}
    (f : String × CacheEntry → Bool) (h : mapGet m k = none) :
    mapGet (m.filter f) k = none := by
  have h2 : (m.filter f).find? (fun p => p.1 == k) = none :=
    List.find?_eq_none.mpr (fun p hp =>
      List.find?_eq_none.mp (mapGet_find?_eq_none h) p (List.mem_of_mem_filter hp))
  unfold mapGet
  rw [h2]
  rfl

theorem mapGet_filter_keep {m : List (String × CacheEntry)} {k : String} {e : CacheEntry}
    (f : String × CacheEntry → Bool) (hget : mapGet m k = some e) (hf : f (k, e) = true) :
    mapGet (m.filter f) k = some e := by
  induction m with
  | nil => simp [mapGet] at hget
  | cons p rest ih =>
    by_cases hk : p.1 = k
    · have hpe : p = (k, e) := by
        have h2 : p.2 = e := by
          rw [mapGet_cons_eq hk] at hget
          exact Option.some.inj hget
        cases p
        simp_all
      subst hpe
      rw [List.filter_cons, if_pos hf]
      exact mapGet_cons_eq rfl
    · have hget2 : mapGet rest k = some e := by
        rwa [mapGet_cons_ne hk] at hget
      rw [List.filter_cons]
      by_cases hfp : f p = true
      · rw [if_pos hfp, mapGet_cons_ne hk]
        exact ih hget2
      · rw [if_neg hfp]
        exact ih hget2

theorem mapGet_filter_drop {m : List (String × CacheEntry)} {k : String} {e : CacheEntry}
    (f : String × CacheEntry → Bool) (hnd : keysNodup m)
    (hget : mapGet m k = some e) (hf : f (k, e) = false) :
    mapGet (m.filter f) k = none := by
  induction m with
  | nil => simp [mapGet] at hget
  | cons p rest ih =>
    unfold keysNodup at hnd
    simp only [List.map_cons, List.nodup_cons] at hnd
    obtain ⟨hnotmem, hndrest⟩ := hnd
    by_cases hk : p.1 = k
    · have hpe : p = (k, e) := by
        have h2 : p.2 = e := by
          rw [mapGet_cons_eq hk] at hget
          exact Option.some.inj hget
        cases p
        simp_all
      subst hpe
      rw [List.filter_cons, if_neg (by simp [hf])]
      exact mapGet_filter_of_none f (mapGet_eq_none_of_not_mem (by simpa [hk] using hnotmem))
    · have hget2 : mapGet rest k = some e := by
        rwa [mapGet_cons_ne hk] at hget
      rw [List.filter_cons]
      by_cases hfp : f p = true
      · rw [if_pos hfp, mapGet_cons_ne hk]
        exact ih hndrest hget2
      · rw [if_neg hfp]
        exact ih hndrest hget2

theorem getFromCache_disabled (st : DBState) (now : Int) (key : String)
    (h : st.isCacheEnabled = false) : getFromCache st now key = (none, st) := by
  simp [getFromCache, h]

theorem getFromCache_hit (st : DBState) (now : Int) (key : String) (e : CacheEntry)
    (hen : st.isCacheEnabled = true) (hget : mapGet st.cache key = some e)
    (hv : now < e.expiresAt) :
    getFromCache st now key =
      (some { data := some e.data, error := none, fromCache := true,
              cachedAt := some (e.expiresAt - st.defaultTTL * 1000),
              expiresAt := some e.expiresAt }, st) := by
  simp [getFromCache, isCacheValid, hen, hget, hv]

theorem getFromCache_miss_absent (st : DBState) (now : Int) (key : String)
    (hen : st.isCacheEnabled = true) (hget : mapGet st.cache key = none) :
    getFromCache st now key = (none, { st with cache := mapDelete st.cache key }) := by
  simp [getFromCache, hen, hget]

theorem getFromCache_miss_expired (st : DBState) (now : Int) (key : String) (e : CacheEntry)
    (hen : st.isCacheEnabled = true) (hget : mapGet st.cache key = some e)
    (hv : ¬ now < e.expiresAt) :
    getFromCache st now key = (none, { st with cache := mapDelete st.cache key }) := by
  simp [getFromCache, isCacheValid, hen, hget, hv]

theorem getFromCache_some_fromCache {st : DBState} {now : Int} {key : String}
    {r : QueryResult} (h : (getFromCache st now key).1 = some r) : r.fromCache = true := by
  by_cases hen : st.isCacheEnabled = true
  · rcases hget : mapGet st.cache key with _ | e
    · rw [getFromCache_miss_absent st now key hen hget] at h
      simp at h
    · by_cases hv : now < e.expiresAt
      · rw [getFromCache_hit st now key e hen hget hv] at h
        simp at h
        rw [← h]
      · rw [getFromCache_miss_expired st now key e hen hget hv] at h
        simp at h
  · rw [getFromCache_disabled st now key (by simpa using hen)] at h
    simp at h

/-- After any read that missed the cache, the same key still misses: the miss
either deleted the entry or caching is disabled. -/
theorem getFromCache_miss_again (st : DBState) (now later : Int) (key : String)
    (h : (getFromCache st now key).1 = none) :
    (getFromCache ((getFromCache st now key).2) later key).1 = none := by
  by_cases hen : st.isCacheEnabled = true
  · rcases hget : mapGet st.cache key with _ | e
    · rw [getFromCache_miss_absent st now key hen hget]
      rw [getFromCache_miss_absent _ later key (by simpa using hen)
        (by simpa using mapGet_mapDelete_self st.cache key)]
    · by_cases hv : now < e.expiresAt
      · rw [getFromCache_hit st now key e hen hget hv] at h
        simp at h
      · rw [getFromCache_miss_expired st now key e hen hget hv]
        rw [getFromCache_miss_absent _ later key (by simpa using hen)
          (by simpa using mapGet_mapDelete_self st.cache key)]
  · have hen' : st.isCacheEnabled = false := by simpa using hen
    rw [getFromCache_disabled st now key hen']
    rw [getFromCache_disabled st later key hen']

theorem setCache_enabled (st : DBState) (now : Int) (key : String) (v : Json)
    (ttl : Int) (tags : List String) (hen : st.isCacheEnabled = true) :
    setCache st now key v ttl tags =
      { st with cache := mapSet st.cache key { data := v, expiresAt := now + ttl * 1000, tags := tags } } := by
  simp [setCache, hen]

theorem invalidateCacheByTags_disabled (st : DBState) (tags : List String)
    (h : st.isCacheEnabled = false) : invalidateCacheByTags st tags = ((), st) := by
  simp [invalidateCacheByTags, h]

theorem invalidateCacheByTags_enabled (st : DBState) (tags : List String)
    (h : st.isCacheEnabled = true) :
    (invalidateCacheByTags st tags).2 =
      { st with cache := st.cache.filter (fun p => !entryMatchesTags p.2 tags) } := by
  simp [invalidateCacheByTags, h]

/-- A concrete service state for witnesses: fresh caches, caching enabled,
the source's default TTL of 300 seconds. -/
def dbInit : DBState :=
  { cache := [], queryCache := [], isCacheEnabled := true, defaultTTL := 300 }

end DatabaseService

namespace DatabaseService

/-- Composite fact used by several claims: with caching enabled, a
`getFromCache` within the TTL window after a `setCache` is a hit returning the
stored value, leaving the state unchanged. -/
theorem set_then_get_hit (st : DBState) (t0 t : Int) (key : String) (value : Json)
    (ttl : Int) (tags : List String) (hen : st.isCacheEnabled = true)
    (hv : t < t0 + ttl * 1000) :
    getFromCache (setCache st t0 key value ttl tags) t key =
      (some { data := some value, error := none, fromCache := true,
              cachedAt := some ((t0 + ttl * 1000) - st.defaultTTL * 1000),
              expiresAt := some (t0 + ttl * 1000) },
       setCache st t0 key value ttl tags) := by
  rw [setCache_enabled st t0 key value ttl tags hen]
  exact getFromCache_hit
    { st with cache := mapSet st.cache key { data := value, expiresAt := t0 + ttl * 1000, tags := tags } }
    t key { data := value, expiresAt := t0 + ttl * 1000, tags := tags }
    hen (mapGet_mapSet_self st.cache key _) hv

/-- Composite fact: with caching enabled, a `getFromCache` at or after the
expiry instant of a just-set entry misses and deletes the entry. -/
theorem set_then_get_miss (st : DBState) (t0 t : Int) (key : String) (value : Json)
    (ttl : Int) (tags : List String) (hen : st.isCacheEnabled = true)
    (hv : ¬ t < t0 + ttl * 1000) :
    (getFromCache (setCache st t0 key value ttl tags) t key).1 = none ∧
    (getFromCache (setCache st t0 key value ttl tags) t key).2.cache =
      mapDelete (setCache st t0 key value ttl tags).cache key := by
  rw [setCache_enabled st t0 key value ttl tags hen]
  rw [getFromCache_miss_expired
    { st with cache := mapSet st.cache key { data := value, expiresAt := t0 + ttl * 1000, tags := tags } }
    t key { data := value, expiresAt := t0 + ttl * 1000, tags := tags }
    hen (mapGet_mapSet_self st.cache key _) hv]
  exact ⟨rfl, rfl⟩

theorem getFromCache_some_error_none {st : DBState} {now : Int} {key : String}
    {r : QueryResult} (h : (getFromCache st now key).1 = some r) : r.error = none := by
  by_cases hen : st.isCacheEnabled = true
  · rcases hget : mapGet st.cache key with _ | e
    · rw [getFromCache_miss_absent st now key hen hget] at h
      simp at h
    · by_cases hv : now < e.expiresAt
      · rw [getFromCache_hit st now key e hen hget hv] at h
        simp at h
        rw [← h]
      · rw [getFromCache_miss_expired st now key e hen hget hv] at h
        simp at h
  · rw [getFromCache_disabled st now key (by simpa using hen)] at h
    simp at h

/-- `select` on a cache hit returns the cached result and performs no
gateway call. -/
theorem select_hit (gw : Gateway) (st : DBState) (tR tS : Int) (table : String)
    (o : SelectOptions) (r : QueryResult) (st1 : DBState)
    (h : getFromCache st tR (selectCacheKey table o) = (some r, st1)) :
    select gw st tR tS table o = (r, st1, []) := by
  simp only [select, h]

/-- `select` on a cache miss with a successful gateway call returns the rows,
caching them exactly when a cache directive was supplied. -/
theorem select_miss_ok (gw : Gateway) (st : DBState) (tR tS : Int) (table : String)
    (o : SelectOptions) (st1 : DBState) (rows : List Json)
    (hmiss : getFromCache st tR (selectCacheKey table o) = (none, st1))
    (hgw : gw.select (buildSelectQuery table o) = GwResult.ok rows) :
    select gw st tR tS table o =
      ({ data := some (Json.arr rows), error := none, fromCache := false },
       (match o.cache with
        | some c => setCache st1 tS (selectCacheKey table o) (Json.arr rows) c.ttl (c.tags.getD [])
        | none => st1),
       [GwCall.select (buildSelectQuery table o)]) := by
  simp only [select, hmiss, hgw]

/-- `select` on a cache miss with a failing gateway call (resolved error or
throw) returns an error result, leaves the post-lookup state untouched, and
performs exactly one gateway call. -/
theorem select_miss_fail (gw : Gateway) (st : DBState) (tR tS : Int) (table : String)
    (o : SelectOptions) (st1 : DBState) (m : String)
    (hmiss : getFromCache st tR (selectCacheKey table o) = (none, st1))
    (hgw : failureMessage (gw.select (buildSelectQuery table o)) = some m) :
    select gw st tR tS table o =
      ({ data := none, error := some m, fromCache := false }, st1,
       [GwCall.select (buildSelectQuery table o)]) := by
  cases hg : gw.select (buildSelectQuery table o) with
  | ok rows =>
      rw [hg] at hgw
      simp [failureMessage] at hgw
  | err m2 =>
      rw [hg] at hgw
      simp only [failureMessage, Option.some.injEq] at hgw
      subst hgw
      simp only [select, hmiss, hg]
  | threw exn =>
      rw [hg] at hgw
      simp only [failureMessage, Option.some.injEq] at hgw
      subst hgw
      simp only [select, hmiss, hg]

/-- `rawQuery` on a cache hit returns the cached result with no gateway call. -/
theorem rawQuery_hit (gw : Gateway) (st : DBState) (tR tS : Int) (query : String)
    (params : List Json) (o : RawQueryOptions) (r : QueryResult) (st1 : DBState)
    (h : getFromCache st tR (rawCacheKey query params) = (some r, st1)) :
    rawQuery gw st tR tS query params o = (r, st1, []) := by
  simp only [rawQuery, h]

/-- `rawQuery` on a cache miss with a failing RPC returns an error result,
leaves the post-lookup state untouched, and performs exactly one gateway call. -/
theorem rawQuery_miss_fail (gw : Gateway) (st : DBState) (tR tS : Int) (query : String)
    (params : List Json) (o : RawQueryOptions) (st1 : DBState) (m : String)
    (hmiss : getFromCache st tR (rawCacheKey query params) = (none, st1))
    (hgw : failureMessage (gw.rpc query params) = some m) :
    rawQuery gw st tR tS query params o =
      ({ data := none, error := some m, fromCache := false }, st1,
       [GwCall.rpc query params]) := by
  cases hg : gw.rpc query params with
  | ok rows =>
      rw [hg] at hgw
      simp [failureMessage] at hgw
  | err m2 =>
      rw [hg] at hgw
      simp only [failureMessage, Option.some.injEq] at hgw
      subst hgw
      simp only [rawQuery, hmiss, hg]
  | threw exn =>
      rw [hg] at hgw
      simp only [failureMessage, Option.some.injEq] at hgw
      subst hgw
      simp only [rawQuery, hmiss, hg]

/-- The cache lookup never changes the enabled flag or the default TTL. -/
theorem getFromCache_state_fields (st : DBState) (now : Int) (key : String) :
    (getFromCache st now key).2.isCacheEnabled = st.isCacheEnabled ∧
    (getFromCache st now key).2.defaultTTL = st.defaultTTL := by
  unfold getFromCache
  split
  · exact ⟨rfl, rfl⟩
  · split
    · exact ⟨rfl, rfl⟩
    · split
      · exact ⟨rfl, rfl⟩
      · exact ⟨rfl, rfl⟩

/-- `rawQuery` on a cache miss with a successful RPC returns the rows, caching
them exactly when a cache directive was supplied. -/
theorem rawQuery_miss_ok (gw : Gateway) (st : DBState) (tR tS : Int) (query : String)
    (params : List Json) (o : RawQueryOptions) (st1 : DBState) (rows : List Json)
    (hmiss : getFromCache st tR (rawCacheKey query params) = (none, st1))
    (hgw : gw.rpc query params = GwResult.ok rows) :
    rawQuery gw st tR tS query params o =
      ({ data := some (Json.arr rows), error := none, fromCache := false },
       (match o.cache with
        | some c => setCache st1 tS (rawCacheKey query params) (Json.arr rows) c.ttl (c.tags.getD [])
        | none => st1),
       [GwCall.rpc query params]) := by
  simp only [rawQuery, hmiss, hgw]

/-- A `select` that misses the cache performs exactly one gateway call,
whatever the gateway's answer. -/
theorem select_miss_calls (gw : Gateway) (st : DBState) (tR tS : Int) (table : String)
    (o : SelectOptions) (st1 : DBState)
    (hmiss : getFromCache st tR (selectCacheKey table o) = (none, st1)) :
    (select gw st tR tS table o).2.2 = [GwCall.select (buildSelectQuery table o)] := by
  cases hg : gw.select (buildSelectQuery table o) with
  | ok rows => rw [select_miss_ok gw st tR tS table o st1 rows hmiss hg]
  | err m => rw [select_miss_fail gw st tR tS table o st1 m hmiss (by rw [hg]; rfl)]
  | threw exn =>
      rw [select_miss_fail gw st tR tS table o st1 (exn.getD "Unknown error") hmiss
        (by rw [hg]; rfl)]

/-- A `rawQuery` that misses the cache performs exactly one gateway call. -/
theorem rawQuery_miss_calls (gw : Gateway) (st : DBState) (tR tS : Int) (query : String)
    (params : List Json) (o : RawQueryOptions) (st1 : DBState)
    (hmiss : getFromCache st tR (rawCacheKey query params) = (none, st1)) :
    (rawQuery gw st tR tS query params o).2.2 = [GwCall.rpc query params] := by
  cases hg : gw.rpc query params with
  | ok rows => rw [rawQuery_miss_ok gw st tR tS query params o st1 rows hmiss hg]
  | err m => rw [rawQuery_miss_fail gw st tR tS query params o st1 m hmiss (by rw [hg]; rfl)]
  | threw exn =>
      rw [rawQuery_miss_fail gw st tR tS query params o st1 (exn.getD "Unknown error") hmiss
        (by rw [hg]; rfl)]

/-- C3: with caching enabled, after `setCache st t0 key value ttl tags` a
`getFromCache` at time `t` returns the cached value exactly when
`t < t0 + ttl * 1000`; with `ttl = 0` the immediate get already misses; and a
get that detects expiry also deletes the entry from the store. -/
theorem C3_ttl_expiry_and_lazy_eviction (st : DBState) (t0 t : Int) (key : String)
    (value : Json) (ttl : Int) (tags : List String)
    (hen : st.isCacheEnabled = true) :
    ((getFromCache (setCache st t0 key value ttl tags) t key).1 =
        some { data := some value, error := none, fromCache := true,
               cachedAt := some ((t0 + ttl * 1000) - st.defaultTTL * 1000),
               expiresAt := some (t0 + ttl * 1000) }
      ↔ t < t0 + ttl * 1000)
    ∧ (ttl = 0 → (getFromCache (setCache st t0 key value ttl tags) t0 key).1 = none)
    ∧ (¬ t < t0 + ttl * 1000 →
        (getFromCache (setCache st t0 key value ttl tags) t key).1 = none ∧
        (getFromCache (setCache st t0 key value ttl tags) t key).2.cache =
          mapDelete (setCache st t0 key value ttl tags).cache key) := by
  refine ⟨⟨fun h => ?_, fun hv => ?_⟩, fun h0 => ?_, fun hv => ?_⟩
  · by_contra hv
    rw [(set_then_get_miss st t0 t key value ttl tags hen hv).1] at h
    simp at h
  · rw [set_then_get_hit st t0 t key value ttl tags hen hv]
  · subst h0
    exact (set_then_get_miss st t0 t0 key value 0 tags hen (by simp)).1
  · exact set_then_get_miss st t0 t key value ttl tags hen hv

/-- Witness for C3 at a concrete input: `ttl = 5` seconds, set at `t0 = 0`,
read at `t = 4000` ms (a hit) and at `t = 5000` ms (a miss that evicts). -/
theorem C3_ttl_expiry_and_lazy_eviction_witness :
    ((getFromCache (setCache dbInit 0 "k" (Json.str "v") 5 []) 4000 "k").1 =
        some { data := some (Json.str "v"), error := none, fromCache := true,
               cachedAt := some ((0 + 5 * 1000) - dbInit.defaultTTL * 1000),
               expiresAt := some (0 + 5 * 1000) })
    ∧ ((getFromCache (setCache dbInit 0 "k" (Json.str "v") 5 []) 5000 "k").1 = none ∧
        (getFromCache (setCache dbInit 0 "k" (Json.str "v") 5 []) 5000 "k").2.cache =
          mapDelete (setCache dbInit 0 "k" (Json.str "v") 5 []).cache "k") :=
  ⟨(C3_ttl_expiry_and_lazy_eviction dbInit 0 4000 "k" (Json.str "v") 5 [] rfl).1.mpr
      (by decide),
   (C3_ttl_expiry_and_lazy_eviction dbInit 0 5000 "k" (Json.str "v") 5 [] rfl).2.2
      (by decide)⟩

/-- C10: on a cache hit the reported `cachedAt` is reconstructed as
`expiresAt - defaultTTL * 1000` using the service's current `defaultTTL` (set
here to `newTTL` between the store and the read), so it differs from the real
caching time `t0` by exactly `(ttl - defaultTTL) * 1000` milliseconds. -/
theorem C10_cachedAt_uses_defaultTTL (st : DBState) (t0 t1 : Int) (key : String)
    (value : Json) (ttl newTTL : Int) (tags : List String)
    (hen : st.isCacheEnabled = true) (hv : t1 < t0 + ttl * 1000) :
    (getFromCache (setDefaultTTL (setCache st t0 key value ttl tags) newTTL) t1 key).1 =
      some { data := some value, error := none, fromCache := true,
             cachedAt := some ((t0 + ttl * 1000) - newTTL * 1000),
             expiresAt := some (t0 + ttl * 1000) }
    ∧ ((t0 + ttl * 1000) - newTTL * 1000) - t0 = (ttl - newTTL) * 1000 := by
  constructor
  · rw [setCache_enabled st t0 key value ttl tags hen]
    rw [getFromCache_hit
      (setDefaultTTL { st with cache := mapSet st.cache key { data := value, expiresAt := t0 + ttl * 1000, tags := tags } } newTTL)
      t1 key { data := value, expiresAt := t0 + ttl * 1000, tags := tags }
      hen (mapGet_mapSet_self st.cache key _) hv]
    rfl
  · ring

/-- Witness for C10: `ttl = 60`, `defaultTTL` changed to `10` before the read;
the reported `cachedAt` is `50000` ms later than the true caching time `0`. -/
theorem C10_cachedAt_uses_defaultTTL_witness :
    (getFromCache (setDefaultTTL (setCache dbInit 0 "k" (Json.num 1) 60 []) 10) 1000 "k").1 =
      some { data := some (Json.num 1), error := none, fromCache := true,
             cachedAt := some ((0 + 60 * 1000) - 10 * 1000),
             expiresAt := some (0 + 60 * 1000) }
    ∧ ((0 + 60 * 1000) - 10 * 1000 : Int) - 0 = (60 - 10) * 1000 :=
  C10_cachedAt_uses_defaultTTL dbInit 0 1000 "k" (Json.num 1) 60 10 [] rfl (by decide)

/-- C9: while caching is disabled `invalidateCacheByTags` leaves the state
untouched, so an entry cached before disabling survives any invalidation
issued while disabled and is served again after re-enabling, within its TTL. -/
theorem C9_invalidation_noop_while_disabled :
    (∀ st tags, st.isCacheEnabled = false → (invalidateCacheByTags st tags).2 = st)
    ∧ (∀ st t0 t1 key value ttl tags itags,
        st.isCacheEnabled = true → t1 < t0 + ttl * 1000 →
        (getFromCache
            (setCacheEnabled
              ((invalidateCacheByTags
                  (setCacheEnabled (setCache st t0 key value ttl tags) false) itags).2)
              true) t1 key).1 =
          some { data := some value, error := none, fromCache := true,
                 cachedAt := some ((t0 + ttl * 1000) - st.defaultTTL * 1000),
                 expiresAt := some (t0 + ttl * 1000) }) := by
  constructor
  · intro st tags h
    rw [invalidateCacheByTags_disabled st tags h]
  · intro st t0 t1 key value ttl tags itags hen hv
    have hstate :
        setCacheEnabled
          ((invalidateCacheByTags
              (setCacheEnabled (setCache st t0 key value ttl tags) false) itags).2) true
        = setCache st t0 key value ttl tags := by
      rw [invalidateCacheByTags_disabled _ itags rfl]
      rw [setCache_enabled st t0 key value ttl tags hen]
      simp only [setCacheEnabled]
      rw [← hen]
    rw [hstate, (set_then_get_hit st t0 t1 key value ttl tags hen hv)]

/-- C4: a read whose key has a valid cached entry returns that entry with
`fromCache = true` and performs zero gateway calls (for both `select` and
`rawQuery`); and after a cache-missed `select` that stored its result under a
cache directive, a second identical `select` within the TTL window performs
zero gateway calls and answers from the cache. -/
theorem C4_read_bypass_on_hit :
    (∀ gw st tR tS table o r st1,
        getFromCache st tR (selectCacheKey table o) = (some r, st1) →
        select gw st tR tS table o = (r, st1, []) ∧ r.fromCache = true)
    ∧ (∀ gw st tR tS query params ro r st1,
        getFromCache st tR (rawCacheKey query params) = (some r, st1) →
        rawQuery gw st tR tS query params ro = (r, st1, []) ∧ r.fromCache = true)
    ∧ (∀ gw st t0 t0' t1 t1' table o c rows,
        st.isCacheEnabled = true →
        o.cache = some c →
        (getFromCache st t0 (selectCacheKey table o)).1 = none →
        gw.select (buildSelectQuery table o) = GwResult.ok rows →
        t1 < t0' + c.ttl * 1000 →
        (select gw ((select gw st t0 t0' table o).2.1) t1 t1' table o).2.2 = []
        ∧ (select gw ((select gw st t0 t0' table o).2.1) t1 t1' table o).1.fromCache = true) := by
  refine ⟨?_, ?_, ?_⟩
  · intro gw st tR tS table o r st1 h
    exact ⟨select_hit gw st tR tS table o r st1 h,
           getFromCache_some_fromCache (by rw [h])⟩
  · intro gw st tR tS query params ro r st1 h
    exact ⟨rawQuery_hit gw st tR tS query params ro r st1 h,
           getFromCache_some_fromCache (by rw [h])⟩
  · intro gw st t0 t0' t1 t1' table o c rows hen hcache hmiss hgw hv
    rcases hg : getFromCache st t0 (selectCacheKey table o) with ⟨ropt, st1⟩
    rw [hg] at hmiss
    simp at hmiss
    subst hmiss
    have hsel1 := select_miss_ok gw st t0 t0' table o st1 rows hg hgw
    have hstate : (select gw st t0 t0' table o).2.1 =
        setCache st1 t0' (selectCacheKey table o) (Json.arr rows) c.ttl (c.tags.getD []) := by
      rw [hsel1, hcache]
    have hen1 : st1.isCacheEnabled = true := by
      have h2 : (getFromCache st t0 (selectCacheKey table o)).2 = st1 := by rw [hg]
      rw [← h2, (getFromCache_state_fields st t0 (selectCacheKey table o)).1]
      exact hen
    have hhit := set_then_get_hit st1 t0' t1 (selectCacheKey table o) (Json.arr rows)
      c.ttl (c.tags.getD []) hen1 hv
    rw [hstate, select_hit gw _ t1 t1' table o _ _ hhit]
    exact ⟨rfl, rfl⟩

/-- A gateway stub where every operation succeeds (with empty row sets). -/
def gwOk : Gateway :=
  { select := fun _ => GwResult.ok []
    insert := fun _ _ => GwResult.ok []
    update := fun _ _ _ => GwResult.ok []
    delete := fun _ _ => GwResult.ok ()
    upsert := fun _ _ _ => GwResult.ok []
    rpc := fun _ _ => GwResult.ok [] }

/-- Concrete select options carrying a 60-second cache directive. -/
def selOpts : SelectOptions := { cache := some { ttl := 60, key := "unused" } }

/-- Witness for C4: a fresh state, a cached `select` at time 0, and an
identical `select` at 1000 ms: no gateway call, served from cache. -/
theorem C4_read_bypass_on_hit_witness :
    (select gwOk ((select gwOk dbInit 0 0 "invoices" selOpts).2.1) 1000 1000
        "invoices" selOpts).2.2 = []
    ∧ (select gwOk ((select gwOk dbInit 0 0 "invoices" selOpts).2.1) 1000 1000
        "invoices" selOpts).1.fromCache = true :=
  C4_read_bypass_on_hit.2.2 gwOk dbInit 0 0 1000 1000 "invoices" selOpts
    { ttl := 60, key := "unused" } [] rfl rfl rfl rfl (by decide)

/-- C7: when a cache-missed read's gateway call fails (resolved error or
throw, summarized by `failureMessage`), the operation returns a `QueryResult`
carrying the failure message as `error` with no `data`, the state after the
call is exactly the state after the cache lookup (the failure is never
stored), and a subsequent identical read misses the cache and calls the
gateway again — for both `select` and `rawQuery`. -/
theorem C7_gateway_errors_surfaced_never_cached
    (gw : Gateway) (st : DBState) (tR tS t2 t2' uR uS u2 u2' : Int)
    (table : String) (o : SelectOptions) (query : String) (params : List Json)
    (ro : RawQueryOptions) (m1 m2 : String)
    (hmiss : (getFromCache st tR (selectCacheKey table o)).1 = none)
    (hgw : failureMessage (gw.select (buildSelectQuery table o)) = some m1)
    (hmissR : (getFromCache st uR (rawCacheKey query params)).1 = none)
    (hgwR : failureMessage (gw.rpc query params) = some m2) :
    ((select gw st tR tS table o).1 =
        { data := none, error := some m1, fromCache := false }
      ∧ (select gw st tR tS table o).2.1 = (getFromCache st tR (selectCacheKey table o)).2
      ∧ (select gw ((select gw st tR tS table o).2.1) t2 t2' table o).2.2 =
          [GwCall.select (buildSelectQuery table o)])
    ∧ ((rawQuery gw st uR uS query params ro).1 =
        { data := none, error := some m2, fromCache := false }
      ∧ (rawQuery gw st uR uS query params ro).2.1 =
          (getFromCache st uR (rawCacheKey query params)).2
      ∧ (rawQuery gw ((rawQuery gw st uR uS query params ro).2.1) u2 u2' query params ro).2.2 =
          [GwCall.rpc query params]) := by
  constructor
  · rcases hg : getFromCache st tR (selectCacheKey table o) with ⟨ropt, st1⟩
    rw [hg] at hmiss
    simp at hmiss
    subst hmiss
    have hfail := select_miss_fail gw st tR tS table o st1 m1 hg hgw
    have hmiss2 : (getFromCache st1 t2 (selectCacheKey table o)).1 = none := by
      have h3 := getFromCache_miss_again st tR t2 (selectCacheKey table o) (by rw [hg])
      rwa [hg] at h3
    have hpair : getFromCache st1 t2 (selectCacheKey table o) =
        (none, (getFromCache st1 t2 (selectCacheKey table o)).2) := by
      rw [← hmiss2]
    refine ⟨by rw [hfail], by rw [hfail], ?_⟩
    rw [hfail]
    exact select_miss_calls gw st1 t2 t2' table o _ hpair
  · rcases hg : getFromCache st uR (rawCacheKey query params) with ⟨ropt, st1⟩
    rw [hg] at hmissR
    simp at hmissR
    subst hmissR
    have hfail := rawQuery_miss_fail gw st uR uS query params ro st1 m2 hg hgwR
    have hmiss2 : (getFromCache st1 u2 (rawCacheKey query params)).1 = none := by
      have h3 := getFromCache_miss_again st uR u2 (rawCacheKey query params) (by rw [hg])
      rwa [hg] at h3
    have hpair : getFromCache st1 u2 (rawCacheKey query params) =
        (none, (getFromCache st1 u2 (rawCacheKey query params)).2) := by
      rw [← hmiss2]
    refine ⟨by rw [hfail], by rw [hfail], ?_⟩
    rw [hfail]
    exact rawQuery_miss_calls gw st1 u2 u2' query params ro _ hpair

/-- A gateway stub where reads fail: `select` with a resolved error `"boom"`,
the raw-query RPC with a resolved error `"crash"`. -/
def gwFail : Gateway :=
  { select := fun _ => GwResult.err "boom"
    insert := fun _ _ => GwResult.err "boom"
    update := fun _ _ _ => GwResult.err "boom"
    delete := fun _ _ => GwResult.err "boom"
    upsert := fun _ _ _ => GwResult.err "boom"
    rpc := fun _ _ => GwResult.err "crash" }

/-- Witness for C7 on a fresh state with the failing gateway stub. -/
theorem C7_gateway_errors_surfaced_never_cached_witness :
    ((select gwFail dbInit 0 0 "t" {}).1 =
        { data := none, error := some "boom", fromCache := false }
      ∧ (select gwFail dbInit 0 0 "t" {}).2.1 = (getFromCache dbInit 0 (selectCacheKey "t" {})).2
      ∧ (select gwFail ((select gwFail dbInit 0 0 "t" {}).2.1) 1 1 "t" {}).2.2 =
          [GwCall.select (buildSelectQuery "t" {})])
    ∧ ((rawQuery gwFail dbInit 0 0 "q" [] {}).1 =
        { data := none, error := some "crash", fromCache := false }
      ∧ (rawQuery gwFail dbInit 0 0 "q" [] {}).2.1 = (getFromCache dbInit 0 (rawCacheKey "q" [])).2
      ∧ (rawQuery gwFail ((rawQuery gwFail dbInit 0 0 "q" [] {}).2.1) 1 1 "q" [] {}).2.2 =
          [GwCall.rpc "q" []]) :=
  C7_gateway_errors_surfaced_never_cached gwFail dbInit 0 0 1 1 0 0 1 1 "t" {} "q" [] {}
    "boom" "crash" rfl rfl rfl rfl

/-- A result is a discriminated success/failure in the weak sense: it never
carries both `data` and `error` (though it may carry neither). -/
def exclusiveResult (r : QueryResult) : Prop := r.data = none ∨ r.error = none

theorem select_exclusive (gw : Gateway) (st : DBState) (tR tS : Int) (table : String)
    (o : SelectOptions) : exclusiveResult (select gw st tR tS table o).1 := by
  rcases hg : getFromCache st tR (selectCacheKey table o) with ⟨ropt, st1⟩
  cases ropt with
  | some r =>
      rw [select_hit gw st tR tS table o r st1 hg]
      exact Or.inr (getFromCache_some_error_none (by rw [hg]))
  | none =>
      cases hgw : gw.select (buildSelectQuery table o) with
      | ok rows =>
          rw [select_miss_ok gw st tR tS table o st1 rows hg hgw]
          exact Or.inr rfl
      | err m =>
          rw [select_miss_fail gw st tR tS table o st1 m hg (by rw [hgw]; rfl)]
          exact Or.inl rfl
      | threw exn =>
          rw [select_miss_fail gw st tR tS table o st1 (exn.getD "Unknown error") hg
            (by rw [hgw]; rfl)]
          exact Or.inl rfl

theorem rawQuery_exclusive (gw : Gateway) (st : DBState) (tR tS : Int) (query : String)
    (params : List Json) (ro : RawQueryOptions) :
    exclusiveResult (rawQuery gw st tR tS query params ro).1 := by
  rcases hg : getFromCache st tR (rawCacheKey query params) with ⟨ropt, st1⟩
  cases ropt with
  | some r =>
      rw [rawQuery_hit gw st tR tS query params ro r st1 hg]
      exact Or.inr (getFromCache_some_error_none (by rw [hg]))
  | none =>
      cases hgw : gw.rpc query params with
      | ok rows =>
          rw [rawQuery_miss_ok gw st tR tS query params ro st1 rows hg hgw]
          exact Or.inr rfl
      | err m =>
          rw [rawQuery_miss_fail gw st tR tS query params ro st1 m hg (by rw [hgw]; rfl)]
          exact Or.inl rfl
      | threw exn =>
          rw [rawQuery_miss_fail gw st tR tS query params ro st1 (exn.getD "Unknown error")
            hg (by rw [hgw]; rfl)]
          exact Or.inl rfl

theorem insert_exclusive (gw : Gateway) (st : DBState) (table : String) (d : Json)
    (o : WriteOptions) : exclusiveResult (DatabaseService.insert gw st table d o).1 := by
  cases hg : gw.insert table d with
  | ok rows =>
      simp only [DatabaseService.insert, hg]
      exact Or.inr rfl
  | err m =>
      simp only [DatabaseService.insert, hg]
      exact Or.inl rfl
  | threw exn =>
      simp only [DatabaseService.insert, hg]
      exact Or.inl rfl

theorem update_exclusive (gw : Gateway) (st : DBState) (table : String) (d : Json)
    (fs : List (String × Json)) (o : WriteOptions) :
    exclusiveResult (DatabaseService.update gw st table d fs o).1 := by
  cases hg : gw.update table d fs with
  | ok rows =>
      simp only [DatabaseService.update, hg]
      exact Or.inr rfl
  | err m =>
      simp only [DatabaseService.update, hg]
      exact Or.inl rfl
  | threw exn =>
      simp only [DatabaseService.update, hg]
      exact Or.inl rfl

theorem delete_exclusive (gw : Gateway) (st : DBState) (table : String)
    (fs : List (String × Json)) (o : DeleteOptions) :
    exclusiveResult (DatabaseService.delete gw st table fs o).1 := by
  cases hg : gw.delete table fs with
  | ok u =>
      simp only [DatabaseService.delete, hg]
      exact Or.inr rfl
  | err m =>
      simp only [DatabaseService.delete, hg]
      exact Or.inl rfl
  | threw exn =>
      simp only [DatabaseService.delete, hg]
      exact Or.inl rfl

theorem upsert_exclusive (gw : Gateway) (st : DBState) (table : String) (d : Json)
    (o : UpsertOptions) : exclusiveResult (upsert gw st table d o).1 := by
  cases hg : gw.upsert table d (onConflictArg o.onConflict) with
  | ok rows =>
      simp only [upsert, hg]
      exact Or.inr rfl
  | err m =>
      simp only [upsert, hg]
      exact Or.inl rfl
  | threw exn =>
      simp only [upsert, hg]
      exact Or.inl rfl

theorem batchGo_exclusive (gw : Gateway) (now : Int) (ops : List BatchOp) :
    ∀ (st : DBState) (acc : List Json), exclusiveResult (batchGo gw now st ops acc).1 := by
  induction ops with
  | nil =>
      intro st acc
      exact Or.inr rfl
  | cons op ops ih =>
      intro st acc
      rcases hex : execOp gw st now op with ⟨r, st1, calls⟩
      cases htr : errorTruthy r.error with
      | true =>
          simp only [batchGo, hex, htr]
          exact Or.inl rfl
      | false =>
          rcases hb : batchGo gw now st1 ops (acc ++ [r.data.getD Json.null]) with ⟨r2, st2, calls2⟩
          simp only [batchGo, hex, htr, hb]
          have h2 := ih st1 (acc ++ [r.data.getD Json.null])
          rw [hb] at h2
          exact h2

/-- C2 counterexample: a successful `delete` returns a result whose `data` and
`error` are BOTH absent, refuting the claim's "never neither" half. -/
theorem C2_counterexample_delete_success_carries_neither :
    (DatabaseService.delete gwOk dbInit "invoices" [] {}).1.data = none
    ∧ (DatabaseService.delete gwOk dbInit "invoices" [] {}).1.error = none :=
  ⟨rfl, rfl⟩

/-- C2 (amended): every `QueryResult` produced by any of the seven operations
never carries both `data` and `error` — error present implies data absent and
vice versa — but a result may carry neither (a successful `delete` has both
fields null). -/
theorem C2_result_never_both_data_and_error (gw : Gateway) (st : DBState)
    (tR tS uR uS now : Int) (table : String) (o : SelectOptions) (d : Json)
    (wo : WriteOptions) (fs : List (String × Json)) (dopts : DeleteOptions)
    (uo : UpsertOptions) (query : String) (params : List Json) (ro : RawQueryOptions)
    (ops : List BatchOp) :
    exclusiveResult (select gw st tR tS table o).1
    ∧ exclusiveResult (DatabaseService.insert gw st table d wo).1
    ∧ exclusiveResult (DatabaseService.update gw st table d fs wo).1
    ∧ exclusiveResult (DatabaseService.delete gw st table fs dopts).1
    ∧ exclusiveResult (upsert gw st table d uo).1
    ∧ exclusiveResult (rawQuery gw st uR uS query params ro).1
    ∧ exclusiveResult (batch gw st now ops).1 :=
  ⟨select_exclusive gw st tR tS table o,
   insert_exclusive gw st table d wo,
   update_exclusive gw st table d fs wo,
   delete_exclusive gw st table fs dopts,
   upsert_exclusive gw st table d uo,
   rawQuery_exclusive gw st uR uS query params ro,
   batchGo_exclusive gw now ops st []⟩

/-- A concrete enabled state with one entry tagged `"invoices"`. -/
def stOneTagged : DBState :=
  { cache := [("k1", { data := Json.num 1, expiresAt := 1000000, tags := ["invoices"] })],
    queryCache := [], isCacheEnabled := true, defaultTTL := 300 }

/-- C5 counterexample: `invalidateCacheByTags` does not return the removal
count — two calls removing different numbers of entries (one versus zero)
return the very same value, the TypeScript `void`/`undefined`. -/
theorem C5_counterexample_no_count_returned :
    (invalidateCacheByTags stOneTagged ["invoices"]).1 =
        (invalidateCacheByTags dbInit ["invoices"]).1
    ∧ stOneTagged.cache.length -
        ((invalidateCacheByTags stOneTagged ["invoices"]).2).cache.length = 1
    ∧ dbInit.cache.length -
        ((invalidateCacheByTags dbInit ["invoices"]).2).cache.length = 0 :=
  ⟨rfl, rfl, rfl⟩

/-- C5 (amended): with caching enabled, `invalidateCacheByTags tags` removes
exactly the entries whose tag set intersects `tags`: the resulting store is
the original filtered to non-intersecting entries, every intersecting entry
subsequently misses on get, and every other entry is untouched and still
served while valid; the call returns nothing (the count is only logged). -/
theorem C5_tag_invalidation (st : DBState) (tags : List String)
    (hen : st.isCacheEnabled = true) (hnd : keysNodup st.cache) :
    ((invalidateCacheByTags st tags).2).cache =
        st.cache.filter (fun p => !entryMatchesTags p.2 tags)
    ∧ (∀ k e, mapGet st.cache k = some e → entryMatchesTags e tags = true →
        ∀ now, (getFromCache ((invalidateCacheByTags st tags).2) now k).1 = none)
    ∧ (∀ k e now, mapGet st.cache k = some e → entryMatchesTags e tags = false →
        now < e.expiresAt →
        (getFromCache ((invalidateCacheByTags st tags).2) now k).1 =
          some { data := some e.data, error := none, fromCache := true,
                 cachedAt := some (e.expiresAt - st.defaultTTL * 1000),
                 expiresAt := some e.expiresAt }) := by
  have hinv := invalidateCacheByTags_enabled st tags hen
  refine ⟨by rw [hinv], ?_, ?_⟩
  · intro k e hget hmatch now
    have hen2 : ((invalidateCacheByTags st tags).2).isCacheEnabled = true := by
      rw [hinv]
      exact hen
    have hnone : mapGet ((invalidateCacheByTags st tags).2).cache k = none := by
      rw [hinv]
      exact mapGet_filter_drop (fun p => !entryMatchesTags p.2 tags) hnd hget
        (by simp [hmatch])
    rw [getFromCache_miss_absent _ now k hen2 hnone]
  · intro k e now hget hmatch hv
    have hen2 : ((invalidateCacheByTags st tags).2).isCacheEnabled = true := by
      rw [hinv]
      exact hen
    have hsome : mapGet ((invalidateCacheByTags st tags).2).cache k = some e := by
      rw [hinv]
      exact mapGet_filter_keep (fun p => !entryMatchesTags p.2 tags) hget
        (by simp [hmatch])
    have hdttl : ((invalidateCacheByTags st tags).2).defaultTTL = st.defaultTTL := by
      rw [hinv]
    rw [getFromCache_hit _ now k e hen2 hsome hv, hdttl]

/-- A concrete enabled state with one entry tagged `"invoices"` and one
entry with no tags. -/
def stTwoEntries : DBState :=
  { cache := [("k1", { data := Json.num 1, expiresAt := 1000000, tags := ["invoices"] }),
              ("k2", { data := Json.num 2, expiresAt := 1000000, tags := [] })],
    queryCache := [], isCacheEnabled := true, defaultTTL := 300 }

/-- Witness for the amended C5 on a two-entry store: the tagged entry is
removed and misses, the untagged one survives and is still served. -/
theorem C5_tag_invalidation_witness :
    ((invalidateCacheByTags stTwoEntries ["invoices"]).2).cache =
        stTwoEntries.cache.filter (fun p => !entryMatchesTags p.2 ["invoices"])
    ∧ (getFromCache ((invalidateCacheByTags stTwoEntries ["invoices"]).2) 0 "k1").1 = none
    ∧ (getFromCache ((invalidateCacheByTags stTwoEntries ["invoices"]).2) 0 "k2").1 =
        some { data := some (Json.num 2), error := none, fromCache := true,
               cachedAt := some (1000000 - stTwoEntries.defaultTTL * 1000),
               expiresAt := some 1000000 } := by
  have h := C5_tag_invalidation stTwoEntries ["invoices"] rfl
    (by show (stTwoEntries.cache.map Prod.fst).Nodup; decide)
  exact ⟨h.1,
    h.2.1 "k1" { data := Json.num 1, expiresAt := 1000000, tags := ["invoices"] } rfl rfl 0,
    h.2.2 "k2" { data := Json.num 2, expiresAt := 1000000, tags := [] } 0 rfl rfl (by decide)⟩

/-- C8 counterexample: the caller's pagination is not forwarded unchanged — a
supplied `limit` of `0` is dropped entirely (a falsy check), and an `offset`
without a limit is forwarded as the row range `[offset, offset + 9]`,
manufacturing a page size of 10 the caller never supplied. -/
theorem C8_counterexample_pagination_rewritten :
    ({ limit := some 0 : SelectOptions }).limit = some 0
    ∧ (buildSelectQuery "invoices" { limit := some 0 }).limit = none
    ∧ ({ offset := some 5 : SelectOptions }).limit = none
    ∧ (buildSelectQuery "invoices" { offset := some 5 }).range = some (5, 14) :=
  ⟨rfl, rfl, rfl, rfl⟩

/-- C8 (amended): filters, ordering and pagination are forwarded to the
gateway query unchanged provided the caller avoids the rewritten edge cases —
`limit` and `offset` nonzero when supplied, and `offset` only together with a
`limit`; outside that region the coordinator drops a zero `limit`/`offset`
and pages an offset-only query with a default window of 10 rows. -/
theorem C8_params_forwarded (table : String) (o : SelectOptions)
    (hl : o.limit ≠ some 0) (hoff : o.offset ≠ some 0) :
    (buildSelectQuery table o).table = table
    ∧ (buildSelectQuery table o).conds =
        (match o.filters with | some fs => buildConds fs | none => [])
    ∧ (buildSelectQuery table o).order =
        o.orderBy.map (fun ob => (ob.column, ob.ascending.getD true))
    ∧ (buildSelectQuery table o).limit = o.limit
    ∧ (∀ l, o.limit = some l →
        (buildSelectQuery table o).range = o.offset.map (fun off => (off, off + l - 1)))
    ∧ (o.offset = none → (buildSelectQuery table o).range = none) := by
  refine ⟨rfl, rfl, ?_, ?_, ?_, ?_⟩
  · cases hob : o.orderBy with
    | none => simp [buildSelectQuery, hob]
    | some ob =>
        cases has : ob.ascending with
        | none => simp [buildSelectQuery, hob, has]
        | some b => cases b <;> simp [buildSelectQuery, hob, has]
  · cases hl' : o.limit with
    | none => simp [buildSelectQuery, hl']
    | some l =>
        have hl0 : ¬ l = 0 := by
          intro h0
          subst h0
          exact hl hl'
        simp [buildSelectQuery, hl', hl0]
  · intro l hL
    have hl0 : ¬ l = 0 := by
      intro h0
      subst h0
      exact hl hL
    cases ho : o.offset with
    | none => simp [buildSelectQuery, ho]
    | some off =>
        have hoff0 : ¬ off = 0 := by
          intro h0
          subst h0
          exact hoff ho
        simp [buildSelectQuery, ho, hL, hl0, hoff0]
  · intro h
    simp [buildSelectQuery, h]

/-- Concrete select options exercising filters, ordering and pagination. -/
def selOptsFull : SelectOptions :=
  { filters := some [("status", Json.str "paid")]
    orderBy := some { column := "date" }
    limit := some 3
    offset := some 2 }

/-- Witness for the amended C8 on the concrete options above. -/
theorem C8_params_forwarded_witness :
    (buildSelectQuery "invoices" selOptsFull).table = "invoices"
    ∧ (buildSelectQuery "invoices" selOptsFull).conds =
        (match selOptsFull.filters with | some fs => buildConds fs | none => [])
    ∧ (buildSelectQuery "invoices" selOptsFull).order =
        selOptsFull.orderBy.map (fun ob => (ob.column, ob.ascending.getD true))
    ∧ (buildSelectQuery "invoices" selOptsFull).limit = selOptsFull.limit
    ∧ (buildSelectQuery "invoices" selOptsFull).range =
        selOptsFull.offset.map (fun off => (off, off + 3 - 1)) := by
  have h := C8_params_forwarded "invoices" selOptsFull (by decide) (by decide)
  exact ⟨h.1, h.2.1, h.2.2.1, h.2.2.2.1, h.2.2.2.2.1 3 rfl⟩

/-- If every operation of `ops` succeeds (as recorded by `allOkRun`), the
batch loop returns all accumulated results in order. -/
theorem batchGo_all_ok (gw : Gateway) (now : Int) (ops : List BatchOp) :
    ∀ (st st1 : DBState) (rs : List Json) (cs : List GwCall) (acc : List Json),
      allOkRun gw now st ops = some (st1, rs, cs) →
      batchGo gw now st ops acc =
        ({ data := some (Json.arr (acc ++ rs)), error := none, fromCache := false },
         st1, cs) := by
  induction ops with
  | nil =>
      intro st st1 rs cs acc h
      simp only [allOkRun, Option.some.injEq, Prod.mk.injEq] at h
      obtain ⟨h1, h2, h3⟩ := h
      subst h1
      subst h2
      subst h3
      simp [batchGo]
  | cons op ops ih =>
      intro st st1 rs cs acc h
      rcases hex : execOp gw st now op with ⟨r, stm, calls⟩
      simp only [allOkRun, hex] at h
      cases htr : errorTruthy r.error with
      | true =>
          rw [htr] at h
          simp at h
      | false =>
          rw [htr] at h
          rcases hrun : allOkRun gw now stm ops with _ | stRsCs
          · rw [hrun] at h
            simp at h
          · obtain ⟨st2, rs2, cs2⟩ := stRsCs
            rw [hrun] at h
            simp only [Option.some.injEq, Prod.mk.injEq] at h
            obtain ⟨h1, h2, h3⟩ := h
            subst h1
            subst h2
            subst h3
            simp only [batchGo, hex, htr]
            rw [ih stm st2 rs2 cs2 (acc ++ [r.data.getD Json.null]) hrun]
            simp

/-- If the operations before `bad` all finish without a truthy error and `bad`
yields a truthy (non-empty) error, the batch loop returns that error with no
data, the earlier results are discarded, and the operations after `bad`
contribute no gateway calls. -/
theorem batchGo_stops_at_error (gw : Gateway) (now : Int) (pre : List BatchOp) :
    ∀ (st st1 : DBState) (rs : List Json) (cs : List GwCall) (acc : List Json)
      (bad : BatchOp) (post : List BatchOp) (r : QueryResult) (st2 : DBState)
      (calls : List GwCall) (e : String),
      allOkRun gw now st pre = some (st1, rs, cs) →
      execOp gw st1 now bad = (r, st2, calls) →
      r.error = some e →
      e ≠ "" →
      batchGo gw now st (pre ++ bad :: post) acc =
        ({ data := none, error := some e, fromCache := false }, st2, cs ++ calls) := by
  induction pre with
  | nil =>
      intro st st1 rs cs acc bad post r st2 calls e hrun hex herr hne
      have htr : errorTruthy (some e) = true := by
        simpa [errorTruthy, bne_iff_ne] using hne
      simp only [allOkRun, Option.some.injEq, Prod.mk.injEq] at hrun
      obtain ⟨h1, h2, h3⟩ := hrun
      subst h1
      subst h3
      simp only [List.nil_append, batchGo, hex, herr, htr]
  | cons op pre ih =>
      intro st st1 rs cs acc bad post r st2 calls e hrun hex herr hne
      rcases hex0 : execOp gw st now op with ⟨r0, stm, calls0⟩
      simp only [allOkRun, hex0] at hrun
      cases htr0 : errorTruthy r0.error with
      | true =>
          rw [htr0] at hrun
          simp at hrun
      | false =>
          rw [htr0] at hrun
          rcases hrun2 : allOkRun gw now stm pre with _ | stRsCs
          · rw [hrun2] at hrun
            simp at hrun
          · obtain ⟨stA, rsA, csA⟩ := stRsCs
            rw [hrun2] at hrun
            simp only [Option.some.injEq, Prod.mk.injEq] at hrun
            obtain ⟨h1, h2, h3⟩ := hrun
            subst h1
            subst h3
            simp only [List.cons_append, batchGo, hex0, htr0, List.append_eq]
            rw [ih stm stA rsA csA (acc ++ [r0.data.getD Json.null]) bad post r st2 calls e
              hrun2 hex herr hne]
            simp

/-- A gateway stub whose `delete` fails with the EMPTY error message on table
`"a"` and succeeds elsewhere. -/
def gwEmptyErr : Gateway :=
  { select := fun _ => GwResult.ok []
    insert := fun _ _ => GwResult.ok []
    update := fun _ _ _ => GwResult.ok []
    delete := fun table _ => if table = "a" then GwResult.err "" else GwResult.ok ()
    upsert := fun _ _ _ => GwResult.ok []
    rpc := fun _ _ => GwResult.ok [] }

/-- C6 counterexample: the first operation returns an error result (its
`error` field is present, the empty string), yet the batch does NOT stop —
the source's `if (result.error)` is a truthiness check and `""` is falsy, so
the second operation IS invoked (its gateway call appears in the trace) and
the batch reports overall success instead of the first operation's error. -/
theorem C6_counterexample_empty_error_continues :
    (execOp gwEmptyErr dbInit 0 (BatchOp.delete "a" [] {})).1.error = some ""
    ∧ batch gwEmptyErr dbInit 0 [BatchOp.delete "a" [] {}, BatchOp.delete "b" [] {}] =
        ({ data := some (Json.arr [Json.null, Json.null]), error := none, fromCache := false },
         dbInit, [GwCall.delete "a" [], GwCall.delete "b" []]) :=
  ⟨rfl, rfl⟩

/-- C6 (amended): `batch` executes its operations strictly in order and stops
at the first operation whose error message is truthy (non-empty): that error
is returned with no data, operations after it are never invoked (they
contribute no gateway calls), and earlier results are not exposed; an
operation whose error is the empty string does not stop the loop (its null
data is pushed and execution continues), and when no operation yields a
truthy error the batch returns all accumulated results in operation order. -/
theorem C6_batch_stops_on_first_error :
    (∀ gw now st pre bad post st1 rs cs r st2 calls e,
        allOkRun gw now st pre = some (st1, rs, cs) →
        execOp gw st1 now bad = (r, st2, calls) →
        r.error = some e →
        e ≠ "" →
        batch gw st now (pre ++ bad :: post) =
          ({ data := none, error := some e, fromCache := false }, st2, cs ++ calls))
    ∧ (∀ gw now st ops st1 rs cs,
        allOkRun gw now st ops = some (st1, rs, cs) →
        batch gw st now ops =
          ({ data := some (Json.arr rs), error := none, fromCache := false }, st1, cs)) := by
  constructor
  · intro gw now st pre bad post st1 rs cs r st2 calls e h1 h2 h3 h4
    exact batchGo_stops_at_error gw now pre st st1 rs cs [] bad post r st2 calls e h1 h2 h3 h4
  · intro gw now st ops st1 rs cs h
    have h2 := batchGo_all_ok gw now ops st st1 rs cs [] h
    simpa [batch] using h2

/-- A gateway stub whose `delete` succeeds on table `"a"` and fails with
`"boom"` on any other table. -/
def gwMixed : Gateway :=
  { select := fun _ => GwResult.ok []
    insert := fun _ _ => GwResult.ok []
    update := fun _ _ _ => GwResult.ok []
    delete := fun table _ => if table = "a" then GwResult.ok () else GwResult.err "boom"
    upsert := fun _ _ _ => GwResult.ok []
    rpc := fun _ _ => GwResult.ok [] }

/-- Witness for C6: `[delete a (ok), delete b (fails), delete c]` reports
`"boom"` with no data and never calls the gateway for `c`; and the
all-success single-operation batch returns its results in order. -/
theorem C6_batch_stops_on_first_error_witness :
    batch gwMixed dbInit 0
        [BatchOp.delete "a" [] {}, BatchOp.delete "b" [] {}, BatchOp.delete "c" [] {}] =
      ({ data := none, error := some "boom", fromCache := false }, dbInit,
       [GwCall.delete "a" []] ++ [GwCall.delete "b" []])
    ∧ batch gwMixed dbInit 0 [BatchOp.delete "a" [] {}] =
      ({ data := some (Json.arr [Json.null]), error := none, fromCache := false }, dbInit,
       [GwCall.delete "a" []]) :=
  ⟨C6_batch_stops_on_first_error.1 gwMixed 0 dbInit [BatchOp.delete "a" [] {}]
      (BatchOp.delete "b" [] {}) [BatchOp.delete "c" [] {}] dbInit [Json.null]
      [GwCall.delete "a" []] { data := none, error := some "boom", fromCache := false }
      dbInit [GwCall.delete "b" []] "boom" rfl rfl rfl (by decide),
   C6_batch_stops_on_first_error.2 gwMixed 0 dbInit [BatchOp.delete "a" [] {}] dbInit
      [Json.null] [GwCall.delete "a" []] rfl⟩

/-- Witness for C9: an entry tagged `"invoices"` set at `t0 = 0` with
`ttl = 300` survives `invalidateCacheByTags ["invoices"]` issued while caching
is disabled and is returned after re-enabling at `t1 = 1000` ms; plus the
no-op on a concrete disabled state. -/
theorem C9_invalidation_noop_while_disabled_witness :
    ((invalidateCacheByTags (setCacheEnabled dbInit false) ["invoices"]).2 =
        setCacheEnabled dbInit false)
    ∧ (getFromCache
          (setCacheEnabled
            ((invalidateCacheByTags
                (setCacheEnabled (setCache dbInit 0 "k" (Json.num 7) 300 ["invoices"]) false)
                ["invoices"]).2)
            true) 1000 "k").1 =
        some { data := some (Json.num 7), error := none, fromCache := true,
               cachedAt := some ((0 + 300 * 1000) - dbInit.defaultTTL * 1000),
               expiresAt := some (0 + 300 * 1000) } :=
  ⟨C9_invalidation_noop_while_disabled.1 (setCacheEnabled dbInit false) ["invoices"] rfl,
   C9_invalidation_noop_while_disabled.2 dbInit 0 1000 "k" (Json.num 7) 300 ["invoices"]
      ["invoices"] rfl (by decide)⟩

end DatabaseService

/-- C1: the key-encoding function is claimed to produce equal keys for equal
inputs irrespective of the construction order of the parameter bag's fields.
The source derives the key from `JSON.stringify(params)`, which preserves
field insertion order, so the bags `{status:"paid", limit:10}` and
`{limit:10, status:"paid"}` yield different keys: the claim fails on the code
(the spec itself flags this as a latent bug to be fixed). -/
theorem C1_cache_key_depends_on_field_order :
    DatabaseService.generateCacheKey "invoices" DatabaseService.DatabaseOperation.select
      (DatabaseService.Json.obj
        [("status", DatabaseService.Json.str "paid"), ("limit", DatabaseService.Json.num 10)])
    ≠ DatabaseService.generateCacheKey "invoices" DatabaseService.DatabaseOperation.select
      (DatabaseService.Json.obj
        [("limit", DatabaseService.Json.num 10), ("status", DatabaseService.Json.str "paid")]) := by
  decide
